import Mathlib

/-!
Shallow embedding of the core logic of `app.py` (Prasad Realty listing
browser): the catalog filter/sort engine, the lead-ledger validation and
submission functions, the data loader with its fallback dataset, the EMI
calculator and the budget-slider clamp. Python strings are modelled as
lists of characters, Python ints as `Int`, Python floats (EMI) as exact
rationals. Each definition mirrors the source function of the same name.
-/

namespace PrasadRealty

/-- Python strings, modelled as lists of characters. -/
abbrev Str := List Char

/-- The whitespace characters stripped by Python's str.strip (ASCII set). -/
def isPyWS (c : Char) : Bool :=
  c = ' ' || c = '\t' || c = '\n' || c = '\x0d' || c = '\x0b' || c = '\x0c'

/-- Python str.strip: drop leading and trailing whitespace. -/
def pyStrip (s : Str) : Str :=
  ((s.dropWhile isPyWS).reverse.dropWhile isPyWS).reverse

/-- Python str.lower on the ASCII data this app handles. -/
def pyLower (s : Str) : Str := s.map Char.toLower

/-- One property record, restricted to the fields the core logic reads. -/
structure Property where
  id : Int
  title : Str
  region_key : Str
  condition : Str
  home_type : Str
  bedrooms : Int
  bathrooms : Int
  area_sqft : Int
  price_inr : Int
  address : Str
deriving DecidableEq

/-- The session-state filter criteria (`s_*` keys of st.session_state). -/
structure Criteria where
  s_region : Str
  s_condition : Str
  s_type : Str
  s_min_bed : Int
  s_budget : Int × Int
  s_sort : Str
  s_search : Str
deriving DecidableEq

def sAll : Str := "All".data
def sNewest : Str := "Newest".data
def sPriceAsc : Str := "Price ↑".data
def sPriceDesc : Str := "Price ↓".data
def sAreaAsc : Str := "Area ↑".data
def sAreaDesc : Str := "Area ↓".data

/-- The predicate `matches(p)` of app.py (lines 454-473): the early-return
chain over region, condition, home type, bedrooms, budget and the free-text
search over title and address joined by a single space. -/
def matchesProp (c : Criteria) (p : Property) : Bool :=
  if c.s_region ≠ sAll ∧ p.region_key ≠ c.s_region then false
  else if c.s_condition ≠ sAll ∧ p.condition ≠ c.s_condition then false
  else if c.s_type ≠ sAll ∧ p.home_type ≠ c.s_type then false
  else if c.s_min_bed ≠ 0 ∧ p.bedrooms < c.s_min_bed then false
  else if ¬ (c.s_budget.1 ≤ p.price_inr ∧ p.price_inr ≤ c.s_budget.2) then false
  else
    let qlc := pyStrip (pyLower c.s_search)
    if qlc ≠ [] then
      let hay := pyLower (p.title ++ ' ' :: p.address)
      if qlc <:+: hay then true else false
    else true

/-- The `sorter_key(p)` function of app.py (lines 476-486). -/
def sorter_key (c : Criteria) (p : Property) : Int :=
  if c.s_sort = sPriceAsc then p.price_inr
  else if c.s_sort = sPriceDesc then -p.price_inr
  else if c.s_sort = sAreaAsc then p.area_sqft
  else if c.s_sort = sAreaDesc then -p.area_sqft
  else -p.id

/-- `filtered = sorted([p for p in data if matches(p)], key=sorter_key)`:
Python's sorted is a stable sort by the key, modelled by List.mergeSort. -/
def filteredList (c : Criteria) (data : List Property) : List Property :=
  (data.filter (matchesProp c)).mergeSort
    (fun a b => decide (sorter_key c a ≤ sorter_key c b))

/-- Characterization of the filter predicate: `matchesProp` accepts exactly
when every criterion (region, condition, type, bedrooms, budget, text) passes. -/
theorem matchesProp_true_iff (c : Criteria) (p : Property) :
    matchesProp c p = true ↔
      ((c.s_region = sAll ∨ p.region_key = c.s_region) ∧
       (c.s_condition = sAll ∨ p.condition = c.s_condition) ∧
       (c.s_type = sAll ∨ p.home_type = c.s_type) ∧
       (c.s_min_bed = 0 ∨ c.s_min_bed ≤ p.bedrooms) ∧
       (c.s_budget.1 ≤ p.price_inr ∧ p.price_inr ≤ c.s_budget.2) ∧
       (pyStrip (pyLower c.s_search) = [] ∨
         pyStrip (pyLower c.s_search) <:+: pyLower (p.title ++ ' ' :: p.address))) := by
  unfold matchesProp
  constructor
  · intro h
    by_cases h1 : c.s_region ≠ sAll ∧ p.region_key ≠ c.s_region
    · rw [if_pos h1] at h; cases h
    rw [if_neg h1] at h
    by_cases h2 : c.s_condition ≠ sAll ∧ p.condition ≠ c.s_condition
    · rw [if_pos h2] at h; cases h
    rw [if_neg h2] at h
    by_cases h3 : c.s_type ≠ sAll ∧ p.home_type ≠ c.s_type
    · rw [if_pos h3] at h; cases h
    rw [if_neg h3] at h
    by_cases h4 : c.s_min_bed ≠ 0 ∧ p.bedrooms < c.s_min_bed
    · rw [if_pos h4] at h; cases h
    rw [if_neg h4] at h
    by_cases h5 : ¬ (c.s_budget.1 ≤ p.price_inr ∧ p.price_inr ≤ c.s_budget.2)
    · rw [if_pos h5] at h; cases h
    rw [if_neg h5] at h
    dsimp only at h
    by_cases h6 : pyStrip (pyLower c.s_search) ≠ []
    · rw [if_pos h6] at h
      by_cases h7 : pyStrip (pyLower c.s_search) <:+:
          pyLower (p.title ++ ' ' :: p.address)
      · exact ⟨by tauto, by tauto, by tauto, by omega, not_not.mp h5, Or.inr h7⟩
      · rw [if_neg h7] at h; cases h
    · exact ⟨by tauto, by tauto, by tauto, by omega, not_not.mp h5,
        Or.inl (not_not.mp h6)⟩
  · rintro ⟨r1, r2, r3, r4, r5, r6⟩
    rw [if_neg (by tauto), if_neg (by tauto), if_neg (by tauto),
      if_neg (by omega), if_neg (not_not.mpr r5)]
    dsimp only
    rcases r6 with hq | hinf
    · rw [if_neg (not_not.mpr hq)]
    · by_cases hq : pyStrip (pyLower c.s_search) = []
      · rw [if_neg (not_not.mpr hq)]
      · rw [if_pos hq, if_pos hinf]

/-- C1: every item of the filtered result has price inside the inclusive
budget range, and every property priced outside the range is excluded. -/
theorem budget_filter_inclusive (data : List Property) (c : Criteria) :
    (∀ p ∈ filteredList c data,
        c.s_budget.1 ≤ p.price_inr ∧ p.price_inr ≤ c.s_budget.2) ∧
    (∀ p ∈ data, p.price_inr < c.s_budget.1 ∨ c.s_budget.2 < p.price_inr →
        p ∉ filteredList c data) := by
  constructor
  · intro p hp
    rw [filteredList, List.mem_mergeSort, List.mem_filter] at hp
    exact ((matchesProp_true_iff c p).1 hp.2).2.2.2.2.1
  · intro p _ hout hmem
    rw [filteredList, List.mem_mergeSort, List.mem_filter] at hmem
    have hin := ((matchesProp_true_iff c p).1 hmem.2).2.2.2.2.1
    omega

/-- C3 (amended): with all non-text criteria passing, the property passes the
filter exactly when the trimmed lowercased query is a substring of the
lowercased title and address joined by a single space; the check is skipped
when the trimmed query is empty. -/
theorem text_filter_amended (c : Criteria) (p : Property)
    (hr : c.s_region = sAll ∨ p.region_key = c.s_region)
    (hc : c.s_condition = sAll ∨ p.condition = c.s_condition)
    (ht : c.s_type = sAll ∨ p.home_type = c.s_type)
    (hb : c.s_min_bed = 0 ∨ c.s_min_bed ≤ p.bedrooms)
    (hp : c.s_budget.1 ≤ p.price_inr ∧ p.price_inr ≤ c.s_budget.2) :
    matchesProp c p = true ↔
      (pyStrip (pyLower c.s_search) = [] ∨
        pyStrip (pyLower c.s_search) <:+: pyLower (p.title ++ ' ' :: p.address)) := by
  rw [matchesProp_true_iff]
  exact ⟨fun h => h.2.2.2.2.2, fun h => ⟨hr, hc, ht, hb, hp, h⟩⟩

/-- A property and a criteria showing that the haystack is title and address
joined by a space, not their plain concatenation. -/
def p3x : Property :=
  { id := 1, title := "a".data, region_key := "R".data, condition := "New".data,
    home_type := "Apartment".data, bedrooms := 1, bathrooms := 1,
    area_sqft := 100, price_inr := 50, address := "b".data }

def c3x : Criteria :=
  { s_region := sAll, s_condition := sAll, s_type := sAll, s_min_bed := 0,
    s_budget := (0, 100), s_sort := sNewest, s_search := "ab".data }

/-- C3 counterexample: the query "ab" is a case-insensitive substring of the
plain concatenation of title "a" and address "b", yet the property fails the
filter, because the code joins title and address with a space. -/
theorem text_filter_concat_cex :
    c3x.s_search ≠ [] ∧
    pyLower c3x.s_search <:+: pyLower (p3x.title ++ p3x.address) ∧
    matchesProp c3x p3x = false := by decide

/-- C3 witness: the theorem applied at a concrete property and query. -/
theorem text_filter_amended_witness :
    matchesProp c3x p3x = true ↔
      (pyStrip (pyLower c3x.s_search) = [] ∨
        pyStrip (pyLower c3x.s_search) <:+: pyLower (p3x.title ++ ' ' :: p3x.address)) :=
  text_filter_amended c3x p3x (by decide) (by decide) (by decide) (by decide)
    (by decide)

/-- Under sort mode Newest the sort key is the negated id. -/
theorem sorter_key_of_newest {c : Criteria} (h : c.s_sort = sNewest)
    (p : Property) : sorter_key c p = -p.id := by
  rw [sorter_key, h]
  rw [if_neg (by decide), if_neg (by decide), if_neg (by decide),
    if_neg (by decide)]

/-- C5: the sort step is stable (a pair of the filtered input with equal sort
keys keeps its relative order in the result), and under Newest the result is
pairwise descending by id (ties broken by input order via stability). -/
theorem sort_stable_newest (c : Criteria) (data : List Property) :
    (∀ a b : Property, sorter_key c a = sorter_key c b →
        List.Sublist [a, b] (data.filter (matchesProp c)) →
        List.Sublist [a, b] (filteredList c data)) ∧
    (c.s_sort = sNewest →
      (filteredList c data).Pairwise (fun a b => b.id ≤ a.id)) := by
  have htrans : ∀ x y z : Property,
      decide (sorter_key c x ≤ sorter_key c y) = true →
      decide (sorter_key c y ≤ sorter_key c z) = true →
      decide (sorter_key c x ≤ sorter_key c z) = true := by
    intro x y z hxy hyz
    simp only [decide_eq_true_eq] at *
    omega
  have htotal : ∀ x y : Property,
      (decide (sorter_key c x ≤ sorter_key c y) ||
        decide (sorter_key c y ≤ sorter_key c x)) = true := by
    intro x y
    simp [Int.le_total]
  constructor
  · intro a b hk hsub
    exact List.pair_sublist_mergeSort htrans htotal (by simp [hk]) hsub
  · intro hN
    have hs := @List.sorted_mergeSort Property
      (fun a b => decide (sorter_key c a ≤ sorter_key c b))
      htrans htotal (data.filter (matchesProp c))
    refine List.Pairwise.imp ?_ hs
    intro a b hab
    simp only [decide_eq_true_eq, sorter_key_of_newest hN] at hab
    omega

/-! Validators and the lead ledger (app.py lines 105-142, 494-539, 818-860). -/

def msgNameRequired : Str := "Name is required.".data
def msgNameShort : Str := "Name must be at least 2 characters.".data
def msgPhoneRequired : Str := "Phone is required (or provide an email).".data
def msgPhoneInvalid : Str :=
  "Enter a valid phone (digits, optional +, spaces/()- allowed).".data
def msgEmailInvalid : Str := "Enter a valid email address.".data
def msgMessageEmpty : Str := "Message cannot be empty.".data
def msgMessageShort : Str := "Message must be at least 5 characters.".data
def msgContactMethod : Str :=
  "Provide at least one contact method: phone or email.".data
def msgDateInvalid : Str := "Please select a valid date.".data
def msgTimeInvalid : Str := "Please select a valid time.".data

/-- `validate_name` (app.py lines 109-115). -/
def validate_name (name : Str) : Bool × Option Str :=
  let n := pyStrip name
  if n = [] then (false, some msgNameRequired)
  else if n.length < 2 then (false, some msgNameShort)
  else (true, none)

/-- The character class of the phone regex tail: digits, whitespace,
hyphen, parentheses. -/
def isPhoneChar (c : Char) : Bool :=
  c.isDigit || isPyWS c || c = '-' || c = '(' || c = ')'

/-- The regex PHONE_RE after its optional leading plus: one digit then 8 to
15 characters of the tail class, anchored at both ends. -/
def PHONE_RE_body : Str → Bool
  | [] => false
  | c :: rest =>
    c.isDigit && rest.all isPhoneChar &&
      decide (8 ≤ rest.length) && decide (rest.length ≤ 15)

/-- Full match of PHONE_RE (app.py line 105): the optional plus is consumed
when the string starts with one, since a plus can never satisfy the leading
digit class. -/
def PHONE_RE_match : Str → Bool
  | [] => false
  | c :: rest =>
    if c = '+' then PHONE_RE_body rest else PHONE_RE_body (c :: rest)

/-- `validate_phone` (app.py lines 118-124). -/
def validate_phone (phone : Str) : Bool × Option Str :=
  let ph := pyStrip phone
  if ph = [] then (false, some msgPhoneRequired)
  else if ¬ PHONE_RE_match ph then (false, some msgPhoneInvalid)
  else (true, none)

def isEmailLocalChar (c : Char) : Bool :=
  c.isAlphanum || c = '.' || c = '_' || c = '%' || c = '+' || c = '-'

def isEmailDomChar (c : Char) : Bool := c.isAlphanum || c = '.' || c = '-'

/-- Match of the part of EMAIL_RE after the at sign: nonempty domain chars,
a literal dot, then at least two letters to the end. The pattern's dot is
necessarily the last dot of this tail. -/
def EMAIL_RE_tail (rest : Str) : Bool :=
  let tld := (rest.reverse.takeWhile (· ≠ '.')).reverse
  let dom := ((rest.reverse.dropWhile (· ≠ '.')).drop 1).reverse
  rest.contains '.' && dom ≠ [] && dom.all isEmailDomChar &&
    decide (2 ≤ tld.length) && tld.all (·.isAlpha)

/-- Full match of EMAIL_RE (app.py line 106): the local part is everything
before the first at sign. -/
def EMAIL_RE_match (s : Str) : Bool :=
  let lp := s.takeWhile (· ≠ '@')
  let rest := (s.dropWhile (· ≠ '@')).drop 1
  s.contains '@' && lp ≠ [] && lp.all isEmailLocalChar && EMAIL_RE_tail rest

/-- `validate_email` (app.py lines 127-133). -/
def validate_email (email : Str) (allow_blank : Bool) : Bool × Option Str :=
  let e := pyStrip email
  if allow_blank ∧ e = [] then (true, none)
  else if ¬ EMAIL_RE_match e then (false, some msgEmailInvalid)
  else (true, none)

/-- `validate_message` (app.py lines 136-142). -/
def validate_message (msg : Str) : Bool × Option Str :=
  let m := pyStrip msg
  if m = [] then (false, some msgMessageEmpty)
  else if m.length < 5 then (false, some msgMessageShort)
  else (true, none)

/-- One record of the lead ledger (st.session_state.leads). -/
structure Lead where
  ts : Str
  property_id : Option Int
  title : Option Str
  region : Option Str
  name : Str
  phone : Str
  email : Str
  visit_date : Str
  visit_time : Str
  note : Str
  source : Str
deriving DecidableEq

/-- The record `save_visit_lead` appends on success. `ts` is the current
timestamp string; the date and time fields carry their str() rendering.
A `some` date or time models a value passing the isinstance check. -/
def mkVisitLead (ts : Str) (p : Property) (name phone_clean email_clean : Str)
    (visit_date visit_time : Option Str) (note : Str) : Lead :=
  { ts := ts
    property_id := some p.id
    title := some p.title
    region := some p.region_key
    name := pyStrip name
    phone := phone_clean
    email := email_clean
    visit_date := visit_date.getD []
    visit_time := visit_time.getD []
    note := pyStrip note
    source := "site_visit".data }

/-- The violation list accumulated by `save_visit_lead` (app.py lines
497-523), in the order the code appends: name, contact method (or phone and
email checks when one is present), date, time. -/
def visitErrors (name phone email : Str)
    (visit_date visit_time : Option Str) : List Str :=
  (if (validate_name name).1 then [] else [(validate_name name).2.getD []]) ++
  ((if pyStrip phone = [] ∧ pyStrip email = [] then [msgContactMethod]
    else
      (if pyStrip phone ≠ [] then
        (if (validate_phone (pyStrip phone)).1 then []
         else [(validate_phone (pyStrip phone)).2.getD []])
       else []) ++
      (if pyStrip email ≠ [] then
        (if (validate_email (pyStrip email) false).1 then []
         else [(validate_email (pyStrip email) false).2.getD []])
       else [])) ++
   ((if visit_date.isNone then [msgDateInvalid] else []) ++
    (if visit_time.isNone then [msgTimeInvalid] else [])))

/-- `save_visit_lead` (app.py lines 494-539): on any violation return the
messages and leave the ledger unchanged, otherwise append one record. -/
def save_visit_lead (ts : Str) (p : Property) (name phone email : Str)
    (visit_date visit_time : Option Str) (note : Str) (leads : List Lead) :
    Bool × List Str × List Lead :=
  let errors := visitErrors name phone email visit_date visit_time
  if errors = [] then
    (true, [],
      leads ++ [mkVisitLead ts p name (pyStrip phone) (pyStrip email)
        visit_date visit_time note])
  else (false, errors, leads)

/-- The record the quick-contact form appends on success (app.py lines
846-859). -/
def mkContactLead (ts : Str) (qn qp_clean qe_clean msg : Str) : Lead :=
  { ts := ts
    property_id := none
    title := none
    region := none
    name := pyStrip qn
    phone := qp_clean
    email := qe_clean
    visit_date := []
    visit_time := []
    note := pyStrip msg
    source := "contact_form".data }

/-- The violation list of the quick-contact form (app.py lines 819-840):
name, contact method, message. -/
def contactErrors (qn qp qe msg : Str) : List Str :=
  (if (validate_name qn).1 then [] else [(validate_name qn).2.getD []]) ++
  ((if pyStrip qp = [] ∧ pyStrip qe = [] then [msgContactMethod]
    else
      (if pyStrip qp ≠ [] then
        (if (validate_phone (pyStrip qp)).1 then []
         else [(validate_phone (pyStrip qp)).2.getD []])
       else []) ++
      (if pyStrip qe ≠ [] then
        (if (validate_email (pyStrip qe) false).1 then []
         else [(validate_email (pyStrip qe) false).2.getD []])
       else [])) ++
   (if (validate_message msg).1 then [] else [(validate_message msg).2.getD []]))

/-- The quick-contact submit handler (app.py lines 818-860). -/
def send_message (ts : Str) (qn qp qe msg : Str) (leads : List Lead) :
    Bool × List Str × List Lead :=
  let errs := contactErrors qn qp qe msg
  if errs = [] then
    (true, [], leads ++ [mkContactLead ts qn (pyStrip qp) (pyStrip qe) msg])
  else (false, errs, leads)

/-! Data loading with fallback (app.py lines 261-388). -/

/-- The state one candidate properties.json path can be in. `parsedList`
models a readable file holding a JSON array of records; `parsedOther` a
readable file holding valid JSON of any other shape. -/
inductive FileState where
  | absent
  | unreadable
  | malformed
  | parsedList (items : List Property)
  | parsedOther
deriving DecidableEq

/-- A parsed JSON value as load_data inspects it: a list of records, or
anything else. -/
inductive JVal where
  | arr (items : List Property)
  | nonArr
deriving DecidableEq

/-- `_read_json` (app.py lines 261-266): the parsed value, or `[]` when
opening or parsing raises. -/
def readJsonFile : FileState → JVal
  | .parsedList items => .arr items
  | .parsedOther => .nonArr
  | _ => .arr []

/-- `Path.exists()` for a candidate path. -/
def fileExists : FileState → Bool
  | .absent => false
  | _ => true

/-- The built-in FALLBACK dataset (app.py lines 269-351), restricted to the
fields the core logic reads. -/
def FALLBACK : List Property :=
  [{ id := 7, title := "Independent 4BHK with garden".data,
     region_key := "Hanumanthawaka".data, condition := "New".data,
     home_type := "Individual".data, bedrooms := 4, bathrooms := 4,
     area_sqft := 2400, price_inr := 22500000,
     address := "Colony Rd, Hanumanthawaka".data },
   { id := 9, title := "MVP 2BHK corner flat".data,
     region_key := "MVP Colony".data, condition := "New".data,
     home_type := "Apartment".data, bedrooms := 2, bathrooms := 2,
     area_sqft := 1050, price_inr := 7800000,
     address := "Sector 5, MVP Colony".data },
   { id := 1, title := "2BHK near park".data,
     region_key := "Visalakshinagar".data, condition := "New".data,
     home_type := "Apartment".data, bedrooms := 2, bathrooms := 2,
     area_sqft := 980, price_inr := 6500000,
     address := "Plot 23, Visalakshinagar".data },
   { id := 4, title := "Luxury 4BHK penthouse".data,
     region_key := "MVP Colony".data, condition := "New".data,
     home_type := "Apartment".data, bedrooms := 4, bathrooms := 4,
     area_sqft := 2200, price_inr := 32000000,
     address := "Sector 1, MVP Colony".data }]

/-- `load_data` (app.py lines 353-388) over its candidate paths: the first
existing path whose JSON parses to a nonempty list wins; otherwise the
fallback dataset. Total by construction: no input state raises. -/
def load_data : List FileState → List Property
  | [] => FALLBACK
  | p :: rest =>
    if fileExists p then
      match readJsonFile p with
      | .arr items => if items ≠ [] then items else load_data rest
      | .nonArr => load_data rest
    else load_data rest

/-- A candidate-path state the spec calls a data-load error: the file is
absent, unreadable, or holds malformed JSON. -/
def isErrorState : FileState → Bool
  | .absent => true
  | .unreadable => true
  | .malformed => true
  | _ => false

/-! EMI calculator (app.py lines 758-764), floats modelled as rationals. -/

/-- The EMI computation: `r = (rate/100)/12`, `n = years*12`, then the
zero-rate, positive-rate and degenerate branches. -/
def emi (loan_amt rate : ℚ) (years : ℕ) : ℚ :=
  let r := rate / 100 / 12
  let n := years * 12
  if n > 0 then
    (if r = 0 then loan_amt / (n : ℚ)
     else loan_amt * r * (1 + r) ^ n / ((1 + r) ^ n - 1))
  else 0

/-! Budget slider clamp (app.py lines 390-393 and 433-441). -/

def pricesOf (data : List Property) : List Int := data.map (·.price_inr)

/-- `pmin_data` (app.py line 392): the least listed price, 0 if none. -/
def pmin_data (data : List Property) : Int :=
  match (pricesOf data).min? with
  | some m => m
  | none => 0

/-- `pmax_data` (app.py line 393): the greatest listed price, 10000000 if
none. -/
def pmax_data (data : List Property) : Int :=
  match (pricesOf data).max? with
  | some m => m
  | none => 10000000

/-- The budget-slider recovery (app.py lines 434-438): raise the stored min
to pmin, cut the stored max to pmax, and on a crossed range reset to the
full observed range. -/
def budgetClamp (pmin pmax a b : Int) : Int × Int :=
  let mn := max pmin a
  let mx := min pmax b
  if mn > mx then (pmin, pmax) else (mn, mx)

/-- Clamping one bound into the observed price range. -/
def clampInto (lo hi x : Int) : Int := min (max lo x) hi

/-- A string with no leading and no trailing whitespace. -/
def noEdgeWS (s : Str) : Bool :=
  s.head?.all (fun c => !isPyWS c) && s.getLast?.all (fun c => !isPyWS c)

/-! Helper lemmas on stripping. -/

theorem dropWhile_head_false (p : Char → Bool) (l : Str) :
    ∀ c ∈ (l.dropWhile p).head?, p c = false := by
  induction l with
  | nil => simp
  | cons a t ih =>
    by_cases h : p a
    · simpa [List.dropWhile_cons, h] using ih
    · simp [List.dropWhile_cons, h]

theorem getLast?_dropWhile (p : Char → Bool) (l : Str) :
    l.dropWhile p = [] ∨ (l.dropWhile p).getLast? = l.getLast? := by
  induction l with
  | nil => exact Or.inl rfl
  | cons a t ih =>
    by_cases h : p a
    · rw [List.dropWhile_cons_of_pos h]
      by_cases ht : t.dropWhile p = []
      · exact Or.inl ht
      · refine Or.inr ?_
        rcases ih with h0 | h1
        · exact absurd h0 ht
        · rw [h1]
          cases t with
          | nil => simp [List.dropWhile] at ht
          | cons b t2 => rw [List.getLast?_cons_cons]
    · rw [List.dropWhile_cons_of_neg h]
      exact Or.inr rfl

theorem dropWhile_eq_self_of_head (p : Char → Bool) (l : Str)
    (h : ∀ c ∈ l.head?, p c = false) : l.dropWhile p = l := by
  cases l with
  | nil => rfl
  | cons a t => simp [List.dropWhile_cons, h a (by simp)]

theorem head_strip_ok (s : Str) :
    ∀ c ∈ (pyStrip s).head?, isPyWS c = false := by
  intro c hc
  show isPyWS c = false
  have h1 : (pyStrip s).head? =
      ((s.dropWhile isPyWS).reverse.dropWhile isPyWS).getLast? := by
    rw [pyStrip, List.head?_reverse]
  rcases getLast?_dropWhile isPyWS (s.dropWhile isPyWS).reverse with h0 | h2
  · rw [h1, h0] at hc
    cases hc
  · rw [h1, h2, List.getLast?_reverse] at hc
    exact dropWhile_head_false isPyWS s c hc

theorem getLast_strip_ok (s : Str) :
    ∀ c ∈ (pyStrip s).getLast?, isPyWS c = false := by
  intro c hc
  rw [pyStrip, List.getLast?_reverse] at hc
  exact dropWhile_head_false isPyWS (s.dropWhile isPyWS).reverse c hc

/-- A string already free of edge whitespace is a fixed point of the strip. -/
theorem pyStrip_eq_self (l : Str)
    (hh : ∀ c ∈ l.head?, isPyWS c = false)
    (hl : ∀ c ∈ l.getLast?, isPyWS c = false) : pyStrip l = l := by
  show ((l.dropWhile isPyWS).reverse.dropWhile isPyWS).reverse = l
  rw [dropWhile_eq_self_of_head _ _ hh]
  rw [dropWhile_eq_self_of_head _ _ (by simpa [List.head?_reverse] using hl)]
  exact l.reverse_reverse

theorem pyStrip_idem (s : Str) : pyStrip (pyStrip s) = pyStrip s :=
  pyStrip_eq_self _ (head_strip_ok s) (getLast_strip_ok s)

theorem noEdgeWS_pyStrip (s : Str) : noEdgeWS (pyStrip s) = true := by
  rw [noEdgeWS, Bool.and_eq_true]
  constructor
  · cases hh : (pyStrip s).head? with
    | none => rfl
    | some c =>
      simp only [Option.all_some, Bool.not_eq_true']
      exact head_strip_ok s c (by rw [hh]; exact rfl)
  · cases hh : (pyStrip s).getLast? with
    | none => rfl
    | some c =>
      simp only [Option.all_some, Bool.not_eq_true']
      exact getLast_strip_ok s c (by rw [hh]; exact rfl)

/-! Characterizations of the validators and error lists. -/

theorem validate_phone_strip (qp : Str) (h : pyStrip qp ≠ []) :
    validate_phone (pyStrip qp) =
      if PHONE_RE_match (pyStrip qp) then (true, none)
      else (false, some msgPhoneInvalid) := by
  rw [validate_phone]
  rw [pyStrip_idem, if_neg h]
  by_cases hm : PHONE_RE_match (pyStrip qp) <;> simp [hm]

theorem validate_email_strip (qe : Str) :
    validate_email (pyStrip qe) false =
      if EMAIL_RE_match (pyStrip qe) then (true, none)
      else (false, some msgEmailInvalid) := by
  rw [validate_email]
  rw [pyStrip_idem, if_neg (by simp)]
  by_cases hm : EMAIL_RE_match (pyStrip qe) <;> simp [hm]

theorem errName_eq (name : Str) :
    (if (validate_name name).1 then [] else [(validate_name name).2.getD []]) =
      (if pyStrip name = [] then [msgNameRequired] else []) ++
      (if pyStrip name ≠ [] ∧ (pyStrip name).length < 2 then [msgNameShort]
       else []) := by
  by_cases h1 : pyStrip name = []
  · simp [validate_name, h1]
  · by_cases h2 : (pyStrip name).length < 2 <;> simp [validate_name, h1, h2]

theorem errPhone_eq (phone : Str) :
    (if pyStrip phone ≠ [] then
       (if (validate_phone (pyStrip phone)).1 then []
        else [(validate_phone (pyStrip phone)).2.getD []])
     else []) =
      (if pyStrip phone ≠ [] ∧ PHONE_RE_match (pyStrip phone) = false
       then [msgPhoneInvalid] else []) := by
  by_cases h0 : pyStrip phone = []
  · simp [h0]
  · rw [validate_phone_strip phone h0]
    by_cases hm : PHONE_RE_match (pyStrip phone) <;> simp [h0, hm]

theorem errEmail_eq (email : Str) :
    (if pyStrip email ≠ [] then
       (if (validate_email (pyStrip email) false).1 then []
        else [(validate_email (pyStrip email) false).2.getD []])
     else []) =
      (if pyStrip email ≠ [] ∧ EMAIL_RE_match (pyStrip email) = false
       then [msgEmailInvalid] else []) := by
  by_cases h0 : pyStrip email = []
  · simp [h0]
  · rw [validate_email_strip email]
    by_cases hm : EMAIL_RE_match (pyStrip email) <;> simp [h0, hm]

theorem errContact_eq (phone email : Str) :
    (if pyStrip phone = [] ∧ pyStrip email = [] then [msgContactMethod]
     else
       (if pyStrip phone ≠ [] then
         (if (validate_phone (pyStrip phone)).1 then []
          else [(validate_phone (pyStrip phone)).2.getD []])
        else []) ++
       (if pyStrip email ≠ [] then
         (if (validate_email (pyStrip email) false).1 then []
          else [(validate_email (pyStrip email) false).2.getD []])
        else [])) =
      (if pyStrip phone = [] ∧ pyStrip email = [] then [msgContactMethod]
       else []) ++
      (if pyStrip phone ≠ [] ∧ PHONE_RE_match (pyStrip phone) = false
       then [msgPhoneInvalid] else []) ++
      (if pyStrip email ≠ [] ∧ EMAIL_RE_match (pyStrip email) = false
       then [msgEmailInvalid] else []) := by
  by_cases hb : pyStrip phone = [] ∧ pyStrip email = []
  · rw [if_pos hb, if_pos hb]
    simp [hb.1, hb.2]
  · rw [if_neg hb, if_neg hb, errPhone_eq, errEmail_eq]
    simp

/-- The violation list of a site-visit draft, rewritten as one independent
block per rule in the order the code reports them. -/
theorem visitErrors_eq (name phone email : Str) (vd vt : Option Str) :
    visitErrors name phone email vd vt =
      (if pyStrip name = [] then [msgNameRequired] else []) ++
      (if pyStrip name ≠ [] ∧ (pyStrip name).length < 2 then [msgNameShort]
       else []) ++
      (if pyStrip phone = [] ∧ pyStrip email = [] then [msgContactMethod]
       else []) ++
      (if pyStrip phone ≠ [] ∧ PHONE_RE_match (pyStrip phone) = false
       then [msgPhoneInvalid] else []) ++
      (if pyStrip email ≠ [] ∧ EMAIL_RE_match (pyStrip email) = false
       then [msgEmailInvalid] else []) ++
      (if vd = none then [msgDateInvalid] else []) ++
      (if vt = none then [msgTimeInvalid] else []) := by
  have hd : (if vd.isNone then [msgDateInvalid] else []) =
      (if vd = none then [msgDateInvalid] else []) := by cases vd <;> simp
  have ht : (if vt.isNone then [msgTimeInvalid] else []) =
      (if vt = none then [msgTimeInvalid] else []) := by cases vt <;> simp
  rw [visitErrors, errName_eq, errContact_eq, hd, ht]
  simp [List.append_assoc]

theorem mem_optSingle (x m : Str) (P : Prop) [Decidable P] :
    x ∈ (if P then [m] else []) ↔ (x = m ∧ P) := by
  split <;> simp_all

theorem optSingle_sublist (P : Prop) [Decidable P] (m : Str) :
    List.Sublist (if P then [m] else []) [m] := by
  split
  · exact List.Sublist.refl _
  · exact List.nil_sublist _

/-- Membership in the site-visit violation list: exactly one message per
violated rule, each rule judged independently of the others. -/
theorem visitErrors_mem_iff (x name phone email : Str) (vd vt : Option Str) :
    x ∈ visitErrors name phone email vd vt ↔
      ((x = msgNameRequired ∧ pyStrip name = []) ∨
       (x = msgNameShort ∧ pyStrip name ≠ [] ∧ (pyStrip name).length < 2) ∨
       (x = msgContactMethod ∧ pyStrip phone = [] ∧ pyStrip email = []) ∨
       (x = msgPhoneInvalid ∧ pyStrip phone ≠ [] ∧
         PHONE_RE_match (pyStrip phone) = false) ∨
       (x = msgEmailInvalid ∧ pyStrip email ≠ [] ∧
         EMAIL_RE_match (pyStrip email) = false) ∨
       (x = msgDateInvalid ∧ vd = none) ∨
       (x = msgTimeInvalid ∧ vt = none)) := by
  rw [visitErrors_eq]
  simp only [List.mem_append, mem_optSingle, or_assoc]

/-- The violation list never repeats a message. -/
theorem visitErrors_nodup (name phone email : Str) (vd vt : Option Str) :
    (visitErrors name phone email vd vt).Nodup := by
  have hsub : List.Sublist (visitErrors name phone email vd vt)
      ([msgNameRequired] ++ [msgNameShort] ++ [msgContactMethod] ++
       [msgPhoneInvalid] ++ [msgEmailInvalid] ++ [msgDateInvalid] ++
       [msgTimeInvalid]) := by
    rw [visitErrors_eq]
    exact List.Sublist.append (List.Sublist.append (List.Sublist.append
      (List.Sublist.append (List.Sublist.append (List.Sublist.append
        (optSingle_sublist _ _) (optSingle_sublist _ _)) (optSingle_sublist _ _))
        (optSingle_sublist _ _)) (optSingle_sublist _ _)) (optSingle_sublist _ _))
      (optSingle_sublist _ _)
  exact List.Nodup.sublist hsub (by decide)

/-- C2: the submission returns exactly the violation list; on any violation
the ledger is unchanged; when no rule is violated exactly one record is
appended; the list holds one message per violated rule (no repetition), each
rule judged independently of the others. -/
theorem save_visit_lead_spec (ts : Str) (p : Property) (name phone email : Str)
    (vd vt : Option Str) (note : Str) (leads : List Lead) :
    ((save_visit_lead ts p name phone email vd vt note leads).2.1 =
        visitErrors name phone email vd vt) ∧
    ((save_visit_lead ts p name phone email vd vt note leads).1 = true ↔
        visitErrors name phone email vd vt = []) ∧
    (visitErrors name phone email vd vt ≠ [] →
      (save_visit_lead ts p name phone email vd vt note leads).2.2 = leads) ∧
    (visitErrors name phone email vd vt = [] →
      (save_visit_lead ts p name phone email vd vt note leads).2.2 =
        leads ++ [mkVisitLead ts p name (pyStrip phone) (pyStrip email)
          vd vt note]) ∧
    (visitErrors name phone email vd vt).Nodup ∧
    (∀ x, x ∈ visitErrors name phone email vd vt ↔
      ((x = msgNameRequired ∧ pyStrip name = []) ∨
       (x = msgNameShort ∧ pyStrip name ≠ [] ∧ (pyStrip name).length < 2) ∨
       (x = msgContactMethod ∧ pyStrip phone = [] ∧ pyStrip email = []) ∨
       (x = msgPhoneInvalid ∧ pyStrip phone ≠ [] ∧
         PHONE_RE_match (pyStrip phone) = false) ∨
       (x = msgEmailInvalid ∧ pyStrip email ≠ [] ∧
         EMAIL_RE_match (pyStrip email) = false) ∨
       (x = msgDateInvalid ∧ vd = none) ∨
       (x = msgTimeInvalid ∧ vt = none))) := by
  by_cases h : visitErrors name phone email vd vt = []
  · refine ⟨?_, ?_, ?_, ?_, visitErrors_nodup name phone email vd vt,
      fun x => visitErrors_mem_iff x name phone email vd vt⟩ <;>
      simp [save_visit_lead, h]
  · refine ⟨?_, ?_, ?_, ?_, visitErrors_nodup name phone email vd vt,
      fun x => visitErrors_mem_iff x name phone email vd vt⟩ <;>
      simp [save_visit_lead, h]

/-- C9: a missing or non-date date value, or a missing or non-time time
value, adds its own violation message alongside any others, and such a draft
never reaches the ledger even when all contact fields are valid. -/
theorem visit_date_time_guard (ts : Str) (p : Property)
    (name phone email : Str) (vd vt : Option Str) (note : Str)
    (leads : List Lead) :
    (vd = none →
      msgDateInvalid ∈
        (save_visit_lead ts p name phone email vd vt note leads).2.1) ∧
    (vt = none →
      msgTimeInvalid ∈
        (save_visit_lead ts p name phone email vd vt note leads).2.1) ∧
    ((vd = none ∨ vt = none) →
      (save_visit_lead ts p name phone email vd vt note leads).1 = false ∧
      (save_visit_lead ts p name phone email vd vt note leads).2.2 = leads) := by
  have hmem : ∀ hv : vd = none ∨ vt = none,
      (msgDateInvalid ∈ visitErrors name phone email vd vt ∨
       msgTimeInvalid ∈ visitErrors name phone email vd vt) := by
    intro hv
    rcases hv with hv | hv
    · exact Or.inl ((visitErrors_mem_iff _ _ _ _ _ _).2
        (Or.inr (Or.inr (Or.inr (Or.inr (Or.inr (Or.inl ⟨rfl, hv⟩)))))))
    · exact Or.inr ((visitErrors_mem_iff _ _ _ _ _ _).2
        (Or.inr (Or.inr (Or.inr (Or.inr (Or.inr (Or.inr ⟨rfl, hv⟩)))))))
  have hne : (vd = none ∨ vt = none) →
      visitErrors name phone email vd vt ≠ [] := by
    intro hv
    rcases hmem hv with hm | hm <;> exact List.ne_nil_of_mem hm
  refine ⟨?_, ?_, ?_⟩
  · intro hv
    have h := hne (Or.inl hv)
    simp only [save_visit_lead, if_neg h]
    exact (visitErrors_mem_iff _ _ _ _ _ _).2
      (Or.inr (Or.inr (Or.inr (Or.inr (Or.inr (Or.inl ⟨rfl, hv⟩))))))
  · intro hv
    have h := hne (Or.inr hv)
    simp only [save_visit_lead, if_neg h]
    exact (visitErrors_mem_iff _ _ _ _ _ _).2
      (Or.inr (Or.inr (Or.inr (Or.inr (Or.inr (Or.inr ⟨rfl, hv⟩))))))
  · intro hv
    have h := hne hv
    simp [save_visit_lead, if_neg h]

/-- C10: both submission paths append records whose name, phone, email and
note fields are the trimmed inputs, so a ledger whose records are free of
edge whitespace stays that way after any submission. -/
theorem leads_trimmed (ts ts2 : Str) (p : Property) (name phone email : Str)
    (vd vt : Option Str) (note qn qp qe msg : Str) (leads : List Lead)
    (h : ∀ l ∈ leads,
      (noEdgeWS l.name && noEdgeWS l.phone && noEdgeWS l.email &&
        noEdgeWS l.note) = true) :
    (∀ l ∈ (save_visit_lead ts p name phone email vd vt note leads).2.2,
      (noEdgeWS l.name && noEdgeWS l.phone && noEdgeWS l.email &&
        noEdgeWS l.note) = true) ∧
    (∀ l ∈ (send_message ts2 qn qp qe msg leads).2.2,
      (noEdgeWS l.name && noEdgeWS l.phone && noEdgeWS l.email &&
        noEdgeWS l.note) = true) := by
  constructor
  · intro l hl
    rw [save_visit_lead] at hl
    split at hl
    · rcases List.mem_append.1 hl with hl | hl
      · exact h l hl
      · rcases List.mem_singleton.1 hl with rfl
        simp [mkVisitLead, noEdgeWS_pyStrip]
    · exact h l hl
  · intro l hl
    rw [send_message] at hl
    split at hl
    · rcases List.mem_append.1 hl with hl | hl
      · exact h l hl
      · rcases List.mem_singleton.1 hl with rfl
        simp [mkContactLead, noEdgeWS_pyStrip]
    · exact h l hl

/-- C10 witness: the theorem applied to the empty ledger and a concrete
submission. -/
theorem leads_trimmed_witness :
    (∀ l ∈ (save_visit_lead [] p3x ("  Al ".data) ("9876543210".data) []
        (some "2025-01-01".data) (some "11:30:00".data) (" hi ".data) []).2.2,
      (noEdgeWS l.name && noEdgeWS l.phone && noEdgeWS l.email &&
        noEdgeWS l.note) = true) ∧
    (∀ l ∈ (send_message [] ("Al".data) ("9876543210".data) []
        ("hello".data) []).2.2,
      (noEdgeWS l.name && noEdgeWS l.phone && noEdgeWS l.email &&
        noEdgeWS l.note) = true) :=
  leads_trimmed [] [] p3x ("  Al ".data) ("9876543210".data) []
    (some "2025-01-01".data) (some "11:30:00".data) (" hi ".data)
    ("Al".data) ("9876543210".data) [] ("hello".data) []
    (by intro l hl; cases hl)

/-! C4: the phone pattern. -/

/-- The phone pattern exactly as the claim words it: after trimming, an
optional leading plus, then a digit, then only characters of the separator
class, with overall trimmed length (the plus included) between 9 and 16. -/
def claimedPhoneOk (s : Str) : Bool :=
  let t := pyStrip s
  let core := match t with
    | '+' :: r => r
    | r => r
  (match core with
   | [] => false
   | c :: rest => c.isDigit && rest.all isPhoneChar) &&
    decide (9 ≤ t.length) && decide (t.length ≤ 16)

/-- The phone pattern as amended: after trimming, an optional plus, then a
digit, then 8 to 15 further characters each a digit, whitespace, hyphen or
parenthesis — 9 to 16 characters not counting the optional plus. -/
def amendedPhoneOk (s : Str) : Prop :=
  ∃ plus c rest, pyStrip s = plus ++ c :: rest ∧ (plus = [] ∨ plus = ['+']) ∧
    c.isDigit = true ∧ rest.all isPhoneChar = true ∧
    8 ≤ rest.length ∧ rest.length ≤ 15

/-- Unfolding of the regex body on a nonempty string. -/
theorem PHONE_RE_body_cons (c : Char) (rest : Str) :
    PHONE_RE_body (c :: rest) = true ↔
      (c.isDigit = true ∧ rest.all isPhoneChar = true ∧
       8 ≤ rest.length ∧ rest.length ≤ 15) := by
  show (c.isDigit && rest.all isPhoneChar && decide (8 ≤ rest.length) &&
    decide (rest.length ≤ 15)) = true ↔ _
  simp only [Bool.and_eq_true, decide_eq_true_eq]
  tauto

/-- The regex match, characterized as the decomposition the amended claim
describes. -/
theorem PHONE_RE_match_iff (t : Str) :
    PHONE_RE_match t = true ↔
      (∃ plus c rest, t = plus ++ c :: rest ∧ (plus = [] ∨ plus = ['+']) ∧
        c.isDigit = true ∧ rest.all isPhoneChar = true ∧
        8 ≤ rest.length ∧ rest.length ≤ 15) := by
  cases t with
  | nil =>
    simp only [PHONE_RE_match, Bool.false_eq_true, false_iff]
    rintro ⟨plus, c, rest, heq, -, -, -, -, -⟩
    rcases plus with _ | ⟨x, t2⟩ <;> simp at heq
  | cons a r =>
    by_cases ha : a = '+'
    · subst ha
      rw [PHONE_RE_match, if_pos rfl]
      constructor
      · intro hm
        cases r with
        | nil => cases hm
        | cons c rest =>
          rw [PHONE_RE_body_cons] at hm
          exact ⟨['+'], c, rest, rfl, Or.inr rfl, hm.1, hm.2.1, hm.2.2.1,
            hm.2.2.2⟩
      · rintro ⟨plus, c, rest, heq, hplus | hplus, hc, hrest, h8, h15⟩
        · rw [hplus, List.nil_append] at heq
          cases heq
          exact absurd hc (by decide)
        · rw [hplus, List.cons_append, List.nil_append] at heq
          cases heq
          rw [PHONE_RE_body_cons]
          exact ⟨hc, hrest, h8, h15⟩
    · rw [PHONE_RE_match, if_neg ha]
      constructor
      · intro hm
        rw [PHONE_RE_body_cons] at hm
        exact ⟨[], a, r, rfl, Or.inl rfl, hm.1, hm.2.1, hm.2.2.1, hm.2.2.2⟩
      · rintro ⟨plus, c, rest, heq, hplus | hplus, hc, hrest, h8, h15⟩
        · rw [hplus, List.nil_append] at heq
          cases heq
          rw [PHONE_RE_body_cons]
          exact ⟨hc, hrest, h8, h15⟩
        · rw [hplus, List.cons_append, List.nil_append] at heq
          cases heq
          exact absurd rfl ha

/-- C4 (amended): a non-empty phone passes validation exactly when its
trimmed form is an optional plus, a digit, and then 8 to 15 further
characters of the separator class (9 to 16 characters after the optional
plus, which the code does not count against the length). -/
theorem validate_phone_amended (s : Str) (h : s ≠ []) :
    (validate_phone s).1 = true ↔ amendedPhoneOk s := by
  unfold amendedPhoneOk
  rw [← PHONE_RE_match_iff]
  rw [validate_phone]
  by_cases h0 : pyStrip s = []
  · rw [if_pos h0, h0]
    simp [PHONE_RE_match]
  · rw [if_neg h0]
    by_cases hm : PHONE_RE_match (pyStrip s)
    · rw [if_neg (by simp [hm])]
      simp [hm]
    · rw [if_pos (by simp [hm])]
      simp [hm]

def phoneCex : Str := "+12345678".data

/-- C4 counterexample: a nine-character phone of the very shape the claim
accepts (a plus, then a digit, then digits, trimmed length 9) that the code
rejects: the regex requires 9 to 16 characters after the optional plus. -/
theorem validate_phone_claim_cex :
    phoneCex ≠ [] ∧ claimedPhoneOk phoneCex = true ∧
    (validate_phone phoneCex).1 = false := by decide

/-- C4 witness: the amended theorem applied to a concrete accepted phone. -/
theorem validate_phone_amended_witness :
    ((validate_phone ("9876543210".data)).1 = true ↔
      amendedPhoneOk ("9876543210".data)) :=
  validate_phone_amended ("9876543210".data) (by decide)

/-- C6: when every candidate path is absent, unreadable, or holds malformed
JSON, loading still returns normally (the model is a total function) with
the built-in fallback dataset as its value. -/
theorem load_data_fallback (paths : List FileState)
    (h : ∀ q ∈ paths, isErrorState q = true) :
    load_data paths = FALLBACK := by
  induction paths with
  | nil => rfl
  | cons q rest ih =>
    have hq := h q (by simp)
    have hrest := ih (fun r hr => h r (by simp [hr]))
    cases q with
    | absent => simpa [load_data, fileExists] using hrest
    | unreadable => simpa [load_data, fileExists, readJsonFile] using hrest
    | malformed => simpa [load_data, fileExists, readJsonFile] using hrest
    | parsedList items => exact absurd hq (by simp [isErrorState])
    | parsedOther => exact absurd hq (by simp [isErrorState])

/-- C6 witness: one absent, one unreadable and one malformed candidate. -/
theorem load_data_fallback_witness :
    load_data [FileState.absent, FileState.unreadable, FileState.malformed] =
      FALLBACK :=
  load_data_fallback _ (by decide)

/-- C7: the EMI computation satisfies the spec formula in all three cases:
zero monthly rate, positive monthly rate, and the degenerate zero-month
guard (vacuous when the term is at least one year). -/
theorem emi_formula (P rate : ℚ) (years : ℕ) (hP : 0 ≤ P) (hr : 0 ≤ rate)
    (hy : 1 ≤ years) :
    (rate / 100 / 12 = 0 → emi P rate years = P / ((years * 12 : ℕ) : ℚ)) ∧
    (0 < rate / 100 / 12 →
      emi P rate years =
        P * (rate / 100 / 12) * (1 + rate / 100 / 12) ^ (years * 12) /
          ((1 + rate / 100 / 12) ^ (years * 12) - 1)) ∧
    (years * 12 = 0 → emi P rate years = 0) := by
  have hn : 0 < years * 12 := by omega
  refine ⟨?_, ?_, ?_⟩
  · intro h0
    rw [emi]
    simp only [if_pos hn, if_pos h0]
  · intro hpos
    rw [emi]
    simp only [if_pos hn, if_neg (ne_of_gt hpos)]
  · intro h0
    exact absurd h0 (by omega)

/-- C7 witness: the zero-rate branch at the spec example principal. -/
theorem emi_formula_witness :
    (((0 : ℚ) / 100 / 12 = 0 →
        emi 1000000 0 20 = 1000000 / ((20 * 12 : ℕ) : ℚ)) ∧
     (0 < (0 : ℚ) / 100 / 12 →
        emi 1000000 0 20 =
          1000000 * ((0 : ℚ) / 100 / 12) *
            (1 + (0 : ℚ) / 100 / 12) ^ (20 * 12) /
            ((1 + (0 : ℚ) / 100 / 12) ^ (20 * 12) - 1)) ∧
     ((20 * 12 : ℕ) = 0 → emi 1000000 0 20 = 0)) :=
  emi_formula 1000000 0 20 (by norm_num) (by norm_num) (by norm_num)

/-- C8: whenever the stored budget bounds, each clamped into the observed
price range, are crossed (clamped min above clamped max), the slider state
is reset to the full observed price range of the loaded collection — the
least and greatest listed prices. -/
theorem budget_range_reset (data : List Property) (a b : Int)
    (hne : data ≠ [])
    (h : clampInto (pmin_data data) (pmax_data data) b <
      clampInto (pmin_data data) (pmax_data data) a) :
    budgetClamp (pmin_data data) (pmax_data data) a b =
      (pmin_data data, pmax_data data) ∧
    pmin_data data ∈ pricesOf data ∧ pmax_data data ∈ pricesOf data ∧
    (∀ x ∈ pricesOf data, pmin_data data ≤ x ∧ x ≤ pmax_data data) := by
  have hplen : pricesOf data ≠ [] := by
    simpa [pricesOf] using hne
  obtain ⟨m, hm⟩ : ∃ m, (pricesOf data).min? = some m := by
    cases hmin : (pricesOf data).min? with
    | none => exact absurd (List.min?_eq_none_iff.1 hmin) hplen
    | some m => exact ⟨m, rfl⟩
  obtain ⟨M, hM⟩ : ∃ M, (pricesOf data).max? = some M := by
    cases hmax : (pricesOf data).max? with
    | none => exact absurd (by simpa using hmax) hplen
    | some M => exact ⟨M, rfl⟩
  have hmin_eq : pmin_data data = m := by rw [pmin_data, hm]
  have hmax_eq : pmax_data data = M := by rw [pmax_data, hM]
  refine ⟨?_, ?_, ?_, ?_⟩
  · have h1 : clampInto (pmin_data data) (pmax_data data) a ≤
        max (pmin_data data) a := min_le_left _ _
    have h2 : min (pmax_data data) b ≤
        clampInto (pmin_data data) (pmax_data data) b :=
      le_min ((min_le_right _ _).trans (le_max_right _ _)) (min_le_left _ _)
    have hgt : min (pmax_data data) b < max (pmin_data data) a :=
      lt_of_le_of_lt h2 (h.trans_le h1)
    rw [budgetClamp]
    simp only [if_pos hgt]
  · rw [hmin_eq]
    exact List.min?_mem (fun x y => min_choice x y) hm
  · rw [hmax_eq]
    exact List.max?_mem (fun x y => max_choice x y) hM
  · intro x hx
    constructor
    · rw [hmin_eq]
      exact (List.le_min?_iff (fun p q r => le_min_iff) hm).1 le_rfl x hx
    · rw [hmax_eq]
      exact (List.max?_le_iff (fun p q r => max_le_iff) hM).1 le_rfl x hx

def data8 : List Property :=
  [{ p3x with id := 21, price_inr := 10 }, { p3x with id := 22, price_inr := 100 }]

/-- C8 witness: a crossed stored range over a two-item collection resets to
the observed range. -/
theorem budget_range_reset_witness :
    budgetClamp (pmin_data data8) (pmax_data data8) 60 20 =
      (pmin_data data8, pmax_data data8) ∧
    pmin_data data8 ∈ pricesOf data8 ∧ pmax_data data8 ∈ pricesOf data8 ∧
    (∀ x ∈ pricesOf data8, pmin_data data8 ≤ x ∧ x ≤ pmax_data data8) :=
  budget_range_reset data8 60 20 (by decide) (by decide)

end PrasadRealty
